import Mathlib

/-!
Shallow embedding of the token-lifecycle core of `ekrsw/new_microservice`:
`auth-service/app/core/security.py`, `auth-service/app/api/v1/auth.py`
(refresh flow, verify endpoint) and the user-service identity replicator
(`user-service/app/messaging/rabbitmq.py`, `user-service/app/crud/user.py`).

Modelling conventions:
- Time is integer seconds since the epoch (the source uses float POSIX
  timestamps; JWT `exp` claims are whole seconds).
- The Redis store is a list of entries with an absolute expiry instant.
  Redis semantics: a key set at `n` with `SETEX ttl` lives while
  `now <= n + ttl` (Redis expires a key once current time strictly
  exceeds its deadline); `SETEX` with a non-positive ttl is an error;
  `DEL` counts only live keys.
- The two key namespaces `refresh_token:{t}` and `blacklist_token:{jti}`
  are modelled structurally (`Key.refresh` / `Key.blacklist`); the string
  prefixes are distinct so the namespaces never collide.
- An RSA key pair is abstracted by `pubKeyOf`: a signature made with
  private key `k` verifies exactly under public key `pubKeyOf k`.
- python-jose `jwt.decode` verifies the signature, then rejects the token
  when `exp < now`; a token without an `exp` claim is accepted.
-/

/-- One logical key of the Revocation Store: the source uses the string
namespaces `refresh_token:{token}` and `blacklist_token:{jti}`, which can
never collide because their prefixes differ. -/
inductive Key where
  | refresh (token : String)
  | blacklist (jti : String)
deriving DecidableEq, Repr

/-- One Redis entry: value plus the absolute instant after which it expires. -/
structure RedisEntry where
  key : Key
  value : String
  expireAt : Int
deriving DecidableEq, Repr

/-- A Redis entry is live at `now` while `now ≤ expireAt`. -/
def RedisEntry.liveAt (now : Int) (e : RedisEntry) : Bool :=
  now ≤ e.expireAt

/-- The Revocation Store (Redis database). -/
abbrev Store := List RedisEntry

/-- Redis GET: the value of `k` if a live entry exists. -/
def Store.get (st : Store) (now : Int) (k : Key) : Option String :=
  match st.find? (fun e => e.key == k) with
  | some e => if e.liveAt now then some e.value else none
  | none => none

/-- Redis SETEX: rejects a non-positive ttl (the client raises an error,
caught by the caller); otherwise overwrites `k` with expiry `now + ttl`. -/
def Store.setex (st : Store) (now : Int) (k : Key) (ttl : Int) (v : String) :
    Option Store :=
  if ttl ≤ 0 then none
  else some (⟨k, v, now + ttl⟩ :: st.filter (fun e => !(e.key == k)))

/-- Redis DEL: removes `k` and reports whether a live entry existed. -/
def Store.del (st : Store) (now : Int) (k : Key) : Bool × Store :=
  ((match st.find? (fun e => e.key == k) with
    | some e => e.liveAt now
    | none => false),
   st.filter (fun e => !(e.key == k)))

/-- JWT claim set used by this system: `create_access_token` always sets
`sub`, `username`, `jti` and `exp`, but a decoded payload is a dict, so
every claim may be absent (`payload.get(...)`). -/
structure Claims where
  sub : Option String
  username : Option String
  jti : Option String
  exp : Option Int
deriving DecidableEq, Repr

/-- A presented token: either a well-formed JWT carrying its claim set and
the private key that signed it, or an undecodable string. -/
inductive Token where
  | signed (claims : Claims) (sigKey : String)
  | malformed (raw : String)
deriving DecidableEq, Repr

/-- Abstraction of the RSA key pair: the public key matching private key
`k`. A signature by `k` verifies exactly under `pubKeyOf k`. -/
def pubKeyOf (privateKey : String) : String :=
  "pub:" ++ privateKey

/-- python-jose `jwt.decode(token, publicKey, algorithms)` with default
options: fails on a malformed token or wrong signature; on success rejects
the token when `exp < now`; a missing `exp` claim is accepted. -/
def jwtDecode (t : Token) (publicKey : String) (now : Int) : Option Claims :=
  match t with
  | .malformed _ => none
  | .signed c k =>
    if pubKeyOf k == publicKey then
      match c.exp with
      | some e => if e < now then none else some c
      | none => some c
    else none

/-- The configuration consumed by `security.py`. `TOKEN_BLACKLIST_ENABLED`
is read by `blacklist_token` / `is_token_blacklisted`; the test settings
declare it (default `True`), the production `Settings` class does not. -/
structure Settings where
  TOKEN_BLACKLIST_ENABLED : Bool
  PRIVATE_KEY : String
  PUBLIC_KEY : String
  ACCESS_TOKEN_EXPIRE_MINUTES : Int
  REFRESH_TOKEN_EXPIRE_DAYS : Int
deriving DecidableEq, Repr

/-- Model of `security.create_access_token`: copies the caller's data
(`{"sub": ..., "username": ...}`), adds a fresh random `jti` (passed here
as a parameter), sets `exp = now + expires_delta` (default
`ACCESS_TOKEN_EXPIRE_MINUTES` minutes) and signs with the private key. -/
def create_access_token (s : Settings) (now : Int) (jti : String)
    (sub username : String) (expiresDelta : Option Int) : Token :=
  let exp :=
    match expiresDelta with
    | some d => now + d
    | none => now + s.ACCESS_TOKEN_EXPIRE_MINUTES * 60
  Token.signed ⟨some sub, some username, some jti, some exp⟩ s.PRIVATE_KEY

/-- Model of `security.blacklist_token`: returns `True` immediately when the
blacklist is disabled; otherwise decodes without the revocation check,
requires a `jti`, computes `ttl = max(exp - now, 0)` and writes
`blacklist_token:{jti}` with that ttl. A decode failure returns `False`;
a missing `exp` makes `exp - now` raise and a zero ttl makes `SETEX`
raise, both caught by the enclosing handler which returns `False`.
(The source's `if not payload` guard can only fire on an empty claim set,
which the `jti` check rejects anyway, so it is not modelled separately.) -/
def blacklist_token (s : Settings) (st : Store) (now : Int) (t : Token) :
    Bool × Store :=
  if !s.TOKEN_BLACKLIST_ENABLED then (true, st)
  else
    match jwtDecode t s.PUBLIC_KEY now with
    | none => (false, st)
    | some payload =>
      match payload.jti with
      | none => (false, st)
      | some jti =>
        match payload.exp with
        | none => (false, st)
        | some e =>
          let ttl := max (e - now) 0
          match st.setex now (Key.blacklist jti) ttl "1" with
          | none => (false, st)
          | some st' => (true, st')

/-- Model of `security.is_token_blacklisted`: `False` when the blacklist is
disabled or the payload has no `jti`; otherwise a store lookup of
`blacklist_token:{jti}`. -/
def is_token_blacklisted (s : Settings) (st : Store) (now : Int)
    (payload : Claims) : Bool :=
  if !s.TOKEN_BLACKLIST_ENABLED then false
  else
    match payload.jti with
    | none => false
    | some jti => (st.get now (Key.blacklist jti)).isSome

/-- Model of `security.verify_token`: decode with the public key (`None` on a
`JWTError`), then reject a blacklisted payload; otherwise return it. -/
def verify_token (s : Settings) (st : Store) (now : Int) (t : Token) :
    Option Claims :=
  match jwtDecode t s.PUBLIC_KEY now with
  | none => none
  | some payload =>
    if is_token_blacklisted s st now payload then none else some payload

/-- Model of `security.create_refresh_token`: stores
`refresh_token:{token} -> user_id` with ttl `REFRESH_TOKEN_EXPIRE_DAYS`
converted to seconds. The opaque random token is passed as a parameter.
`none` models the `SETEX` error on a non-positive ttl. -/
def create_refresh_token (s : Settings) (st : Store) (now : Int)
    (token userId : String) : Option Store :=
  st.setex now (Key.refresh token) (s.REFRESH_TOKEN_EXPIRE_DAYS * 24 * 60 * 60)
    userId

/-- Model of `security.verify_refresh_token`: store lookup, `None` when absent. -/
def verify_refresh_token (st : Store) (now : Int) (token : String) :
    Option String :=
  st.get now (Key.refresh token)

/-- Model of `security.revoke_refresh_token`: Redis DEL, `True` iff an entry was
removed. -/
def revoke_refresh_token (st : Store) (now : Int) (token : String) :
    Bool × Store :=
  st.del now (Key.refresh token)

/-- A row of the auth-service credential store (`models/user.py`); only
the fields the refresh flow reads are kept. -/
structure AuthUser where
  id : String
  username : String
  is_admin : Bool
  is_active : Bool
deriving DecidableEq, Repr

/-- The credential store, queried with `CRUDUser.get_by_id`. -/
abbrev UserDb := List AuthUser

/-- Model of `CRUDUser.get_by_id`: select by primary key. -/
def get_by_id (db : UserDb) (id : String) : Option AuthUser :=
  db.find? (fun u => u.id == id)

/-- Outcome of the `/refresh` endpoint: a new token pair, a 401
(invalid refresh token or unknown user), a 400 (revocation reported no
entry), or a 500 (unexpected error, e.g. a store write that raises). -/
inductive RefreshResult where
  | success (accessToken : Token) (refreshToken : String)
  | unauthorized
  | badRequest
  | serverError
deriving DecidableEq, Repr

/-- Inputs of one `/refresh` request: the presented token pair plus the
fresh random values the flow will draw (`uuid4` for the new `jti`,
`secrets.token_urlsafe` for the new refresh token). -/
structure RefreshRequest where
  oldAccess : Token
  oldRefresh : String
  newJti : String
  newRefresh : String
deriving DecidableEq, Repr

/-- The `/refresh` endpoint (`auth.py refresh_token`) run against a
quiescent store: (1) `validate_refresh_token` (store lookup, 401 when
absent); (2) `get_by_id` on the resolved subject (401 when missing — the
source never consults `is_active` here); (3) `revoke_refresh_token`, 400
when no entry existed; (4) best-effort `blacklist_token` of the presented
access token, result only logged; (5) issue a new access token and a new
refresh token. -/
def refresh_flow (s : Settings) (db : UserDb) (st : Store) (now : Int)
    (req : RefreshRequest) : RefreshResult × Store :=
  match verify_refresh_token st now req.oldRefresh with
  | none => (.unauthorized, st)
  | some userId =>
    match get_by_id db userId with
    | none => (.unauthorized, st)
    | some dbUser =>
      let revoked := revoke_refresh_token st now req.oldRefresh
      if !revoked.1 then (.badRequest, revoked.2)
      else
        let afterBlacklist := (blacklist_token s revoked.2 now req.oldAccess).2
        let newAccess := create_access_token s now req.newJti dbUser.id
          dbUser.username (some (s.ACCESS_TOKEN_EXPIRE_MINUTES * 60))
        match create_refresh_token s afterBlacklist now req.newRefresh
            dbUser.id with
        | none => (.serverError, afterBlacklist)
        | some st' => (.success newAccess req.newRefresh, st')

/-- Response of the `/verify` endpoint (`auth.py verify_token_endpoint`):
a failed verification is reported as a normal `valid: false` body with
one fixed error message, identical for every failure cause. -/
inductive VerifyResponse where
  | ok (user_id username : Option String) (roles : List String)
  | invalid (error : String)
deriving DecidableEq, Repr

/-- Model of `auth.py verify_token_endpoint`: both an undecodable/expired token and
a blacklisted one yield the same `valid: false` response. -/
def verify_token_endpoint (s : Settings) (st : Store) (now : Int)
    (t : Token) : VerifyResponse :=
  match verify_token s st now t with
  | none => .invalid "無効なトークンまたはブラックリスト登録済み"
  | some payload => .ok payload.sub payload.username []

/-!
## Identity Replicator (user-service)
-/

/-- A row of the user-service identity projection (`models/user.py`):
`user_id` is the external id owned by the auth service. -/
structure UserRow where
  user_id : String
  username : String
  fullname : Option String
  is_admin : Bool
  is_active : Bool
deriving DecidableEq, Repr

/-- The identity projection table. -/
abbrev UserTable := List UserRow

/-- user-service `CRUDUser.get_by_user_id`: select by the external id. -/
def get_by_user_id (t : UserTable) (uid : String) : Option UserRow :=
  t.find? (fun r => r.user_id == uid)

/-- Mutate the first row matching `uid` in place, as SQLAlchemy does to
the single ORM object returned by `get_by_user_id`. -/
def updateFirst (t : UserTable) (uid : String) (f : UserRow → UserRow) :
    UserTable :=
  match t with
  | [] => []
  | row :: rest =>
    if row.user_id == uid then f row :: rest
    else row :: updateFirst rest uid f

/-- user-service `CRUDUser.sync_user`: look the external id up; if a row
exists, overwrite `username`, `is_admin`, `is_active` (and `fullname`
only when one is supplied); otherwise insert a new row. -/
def sync_user (t : UserTable) (uid username : String)
    (fullname : Option String) (is_admin is_active : Bool) : UserTable :=
  match get_by_user_id t uid with
  | some _ =>
    updateFirst t uid (fun row =>
      { row with
        username := username
        fullname := match fullname with
          | some f => some f
          | none => row.fullname
        is_admin := is_admin
        is_active := is_active })
  | none => t ++ [⟨uid, username, fullname, is_admin, is_active⟩]

/-- user-service `CRUDUser.delete` driven by `_handle_user_deleted`:
remove the row with the external id when present. -/
def delete_by_user_id (t : UserTable) (uid : String) : UserTable :=
  match get_by_user_id t uid with
  | some _ => t.filter (fun r => !(r.user_id == uid))
  | none => t

/-- The `user_data` object of an identity event: a JSON dict, so every
field may be absent or unusable (`id` must parse as a UUID). -/
structure UserData where
  id : Option String
  username : Option String
  is_admin : Option Bool
  is_active : Option Bool
deriving DecidableEq, Repr

/-- A consumed message body: either undecodable JSON or a decoded object
with its `event_type` and `user_data` fields. -/
inductive MessageBody where
  | invalidJson (raw : String)
  | valid (event_type : Option String) (user_data : UserData)
deriving DecidableEq, Repr

/-- What `async with message.process()` does on exit: acknowledge on a
normal exit, reject on an escaping exception. -/
inductive AckResult where
  | ack
  | reject
deriving DecidableEq, Repr

/-- Model of `RabbitMQClient._handle_user_created`: parse the payload, open a
session, `sync_user`, commit. `storeOk = false` models a transient
projection-store failure (flush/commit raises). Every exception —
malformed payload or store error alike — is caught by the handler's own
`except Exception` and only logged, so the table is left unchanged and
nothing propagates. -/
def handle_user_created (storeOk : Bool) (t : UserTable) (d : UserData) :
    UserTable :=
  if storeOk then
    match d.id, d.username with
    | some uid, some uname =>
      sync_user t uid uname none (d.is_admin.getD false) (d.is_active.getD true)
    | _, _ => t
  else t

/-- Model of `RabbitMQClient._handle_user_updated`: textually the same body as
`_handle_user_created` — both call `sync_user` with the same arguments. -/
def handle_user_updated (storeOk : Bool) (t : UserTable) (d : UserData) :
    UserTable :=
  if storeOk then
    match d.id, d.username with
    | some uid, some uname =>
      sync_user t uid uname none (d.is_admin.getD false) (d.is_active.getD true)
    | _, _ => t
  else t

/-- Model of `RabbitMQClient._handle_user_deleted`: delete by external id when the
row exists; all exceptions are caught and logged. -/
def handle_user_deleted (storeOk : Bool) (t : UserTable) (d : UserData) :
    UserTable :=
  if storeOk then
    match d.id with
    | some uid => delete_by_user_id t uid
    | none => t
  else t

/-- Model of `RabbitMQClient._process_message`: runs inside
`async with message.process()`, which acknowledges iff the body exits
without an exception. The body catches `JSONDecodeError` and every other
`Exception`, and each `_handle_user_*` additionally swallows its own
errors, so every path — including a transient store failure — exits
normally and the message is acknowledged. -/
def process_message (storeOk : Bool) (t : UserTable) (m : MessageBody) :
    AckResult × UserTable :=
  match m with
  | .invalidJson _ => (.ack, t)
  | .valid eventType userData =>
    match eventType with
    | some et =>
      if et == "user.created" then (.ack, handle_user_created storeOk t userData)
      else if et == "user.updated" then
        (.ack, handle_user_updated storeOk t userData)
      else if et == "user.deleted" then
        (.ack, handle_user_deleted storeOk t userData)
      else (.ack, t)
    | none => (.ack, t)

/-- Number of projection rows carrying a given external id. -/
def countByUserId (t : UserTable) (uid : String) : Nat :=
  (t.filter (fun r => r.user_id == uid)).length

/-!
## Small-step model of the `/refresh` flow

Two concurrent `/refresh` requests share only the Revocation Store, whose
single-key operations are atomic (§5 of the design). Each request is the
same program as `refresh_flow`, cut at the store operations; a schedule
interleaves the atomic steps of two requests.
-/

/-- Program counter of one in-flight `/refresh` request. Each constructor
is about to perform one atomic store operation of `auth.py
refresh_token`. -/
inductive PC where
  | start
  | checkUser (userId : String)
  | revoke (dbUser : AuthUser)
  | doBlacklist (dbUser : AuthUser)
  | issue (dbUser : AuthUser)
  | done (r : RefreshResult)
deriving DecidableEq, Repr

/-- One atomic step of a `/refresh` request: the same branches as
`refresh_flow`, executed one store operation at a time. -/
def stepProc (s : Settings) (db : UserDb) (now : Int) (req : RefreshRequest) :
    PC → Store → PC × Store
  | .start, st =>
    match verify_refresh_token st now req.oldRefresh with
    | none => (.done .unauthorized, st)
    | some userId => (.checkUser userId, st)
  | .checkUser userId, st =>
    match get_by_id db userId with
    | none => (.done .unauthorized, st)
    | some dbUser => (.revoke dbUser, st)
  | .revoke dbUser, st =>
    let revoked := revoke_refresh_token st now req.oldRefresh
    if revoked.1 then (.doBlacklist dbUser, revoked.2)
    else (.done .badRequest, revoked.2)
  | .doBlacklist dbUser, st =>
    (.issue dbUser, (blacklist_token s st now req.oldAccess).2)
  | .issue dbUser, st =>
    let newAccess := create_access_token s now req.newJti dbUser.id
      dbUser.username (some (s.ACCESS_TOKEN_EXPIRE_MINUTES * 60))
    match create_refresh_token s st now req.newRefresh dbUser.id with
    | none => (.done .serverError, st)
    | some st' => (.done (.success newAccess req.newRefresh), st')
  | .done r, st => (.done r, st)

/-- Run two interleaved `/refresh` requests: `true` in the schedule steps
request A, `false` steps request B. -/
def runSched (s : Settings) (db : UserDb) (now : Int)
    (reqA reqB : RefreshRequest) :
    List Bool → PC × PC × Store → PC × PC × Store
  | [], cfg => cfg
  | b :: rest, (pa, pb, st) =>
    if b then
      let next := stepProc s db now reqA pa st
      runSched s db now reqA reqB rest (next.1, pb, next.2)
    else
      let next := stepProc s db now reqB pb st
      runSched s db now reqA reqB rest (pa, next.1, next.2)

/-- A request that has passed the revocation step (or finished with a new
token pair). -/
def passedRevoke : PC → Bool
  | .doBlacklist _ => true
  | .issue _ => true
  | .done (.success _ _) => true
  | _ => false

/-- A request that has finished with a new token pair. -/
def isSuccess : PC → Bool
  | .done (.success _ _) => true
  | _ => false

/-- A request that has finished (with any outcome). -/
def isDone : PC → Bool
  | .done _ => true
  | _ => false

/-- A request that has finished without a new token pair. -/
def isFailure : PC → Bool
  | .done .unauthorized => true
  | .done .badRequest => true
  | .done .serverError => true
  | _ => false

/-- The expiry instant `create_access_token` writes: `now + expires_delta`
when a delta is given, else `now + ACCESS_TOKEN_EXPIRE_MINUTES` minutes. -/
def accessExp (s : Settings) (now : Int) (expiresDelta : Option Int) : Int :=
  match expiresDelta with
  | some d => now + d
  | none => now + s.ACCESS_TOKEN_EXPIRE_MINUTES * 60

/-- Whether a `/refresh` outcome carries a new token pair. -/
def isSuccessResult : RefreshResult → Bool
  | .success _ _ => true
  | _ => false

/-- Invariant of two interleaved `/refresh` requests presenting the same
refresh token `r` that the store initially maps to `uid`: at most one
request ever passes the revocation step; once one has, the entry for `r`
is gone for good; while neither has, the entry is still live and neither
request has failed. -/
structure RefreshInv (now : Int) (r uid : String) (st : Store)
    (pa pb : PC) : Prop where
  deadA : passedRevoke pa = true → st.get now (Key.refresh r) = none
  deadB : passedRevoke pb = true → st.get now (Key.refresh r) = none
  mutex : ¬(passedRevoke pa = true ∧ passedRevoke pb = true)
  phase1 : passedRevoke pa = false → passedRevoke pb = false →
    st.get now (Key.refresh r) = some uid
      ∧ isFailure pa = false ∧ isFailure pb = false
  uidA : ∀ v, pa = PC.checkUser v → v = uid
  uidB : ∀ v, pb = PC.checkUser v → v = uid

/-!
## Store lemmas
-/

theorem find?_filter_of_imp {α : Type} (p q : α → Bool) (l : List α)
    (h : ∀ e, p e = true → q e = true) :
    (l.filter q).find? p = l.find? p := by
  induction l with
  | nil => rfl
  | cons a l ih =>
    by_cases hq : q a = true
    · rw [List.filter_cons_of_pos hq]
      by_cases hp : p a = true
      · rw [List.find?_cons_of_pos _ hp, List.find?_cons_of_pos _ hp]
      · rw [List.find?_cons_of_neg _ hp, List.find?_cons_of_neg _ hp, ih]
    · have hp : ¬ p a = true := fun hc => hq (h a hc)
      rw [List.filter_cons_of_neg (by simpa using hq),
        List.find?_cons_of_neg _ hp, ih]

theorem find?_filter_none {α : Type} (p q : α → Bool) (l : List α)
    (h : ∀ e, p e = true → q e = false) :
    (l.filter q).find? p = none := by
  induction l with
  | nil => rfl
  | cons a l ih =>
    by_cases hq : q a = true
    · have hp : ¬ p a = true := fun hc => by
        have hf := h a hc
        rw [hq] at hf
        exact absurd hf (by simp)
      rw [List.filter_cons_of_pos hq, List.find?_cons_of_neg _ hp, ih]
    · rw [List.filter_cons_of_neg (by simpa using hq), ih]

theorem Store.get_setex_ne {st st' : Store} {now ttl : Int} {k' : Key}
    {v : String} (now2 : Int) (k : Key) (hne : k ≠ k')
    (h : st.setex now k' ttl v = some st') :
    st'.get now2 k = st.get now2 k := by
  unfold Store.setex at h
  by_cases httl : ttl ≤ 0
  · simp [httl] at h
  · simp only [if_neg httl, Option.some.injEq] at h
    subst h
    unfold Store.get
    rw [List.find?_cons_of_neg _ (by simpa using Ne.symm hne),
      find?_filter_of_imp _ _ _ (by
        intro e he
        simp only [beq_iff_eq] at he
        simp [he, hne])]

theorem Store.get_setex_self {st st' : Store} {now ttl : Int} {k : Key}
    {v : String} (now2 : Int)
    (h : st.setex now k ttl v = some st') :
    st'.get now2 k = if now2 ≤ now + ttl then some v else none := by
  unfold Store.setex at h
  by_cases httl : ttl ≤ 0
  · simp [httl] at h
  · simp only [if_neg httl, Option.some.injEq] at h
    subst h
    unfold Store.get
    rw [List.find?_cons_of_pos _ (by simp)]
    simp [RedisEntry.liveAt]

theorem Store.get_del_self (st : Store) (now now2 : Int) (k : Key) :
    ((st.del now k).2).get now2 k = none := by
  unfold Store.del Store.get
  rw [find?_filter_none _ _ _ (by
    intro e he
    simp only [beq_iff_eq] at he
    simp [he])]

theorem Store.get_del_ne (st : Store) (now now2 : Int) {k k' : Key}
    (hne : k ≠ k') :
    ((st.del now k').2).get now2 k = st.get now2 k := by
  unfold Store.del Store.get
  rw [find?_filter_of_imp _ _ _ (by
    intro e he
    simp only [beq_iff_eq] at he
    simp [he, hne])]

theorem Store.del_fst (st : Store) (now : Int) (k : Key) :
    (st.del now k).1 = (st.get now k).isSome := by
  unfold Store.del Store.get
  cases st.find? (fun e => e.key == k) with
  | none => rfl
  | some e =>
    by_cases hl : e.liveAt now
    · simp [hl]
    · simp [hl]

/-- The function `blacklist_token` only ever writes to the blacklist namespace, so the
refresh-token namespace is untouched. -/
theorem get_refresh_blacklist_token (s : Settings) (st : Store)
    (now now2 : Int) (tok : Token) (x : String) :
    ((blacklist_token s st now tok).2).get now2 (Key.refresh x)
      = st.get now2 (Key.refresh x) := by
  by_cases hb : s.TOKEN_BLACKLIST_ENABLED = true
  · cases hd : jwtDecode tok s.PUBLIC_KEY now with
    | none => simp [blacklist_token, hb, hd]
    | some payload =>
      cases hj : payload.jti with
      | none => simp [blacklist_token, hb, hd, hj]
      | some jti =>
        cases he : payload.exp with
        | none => simp [blacklist_token, hb, hd, hj, he]
        | some e =>
          cases hs : st.setex now (Key.blacklist jti) (max (e - now) 0) "1" with
          | none => simp [blacklist_token, hb, hd, hj, he, hs]
          | some st' =>
            simp only [blacklist_token, hb, Bool.not_true, Bool.false_eq_true,
              if_false, hd, hj, he, hs]
            exact Store.get_setex_ne now2 (Key.refresh x) (by simp) hs
  · have hb' : s.TOKEN_BLACKLIST_ENABLED = false := by simpa using hb
    simp [blacklist_token, hb']

/-!
## Helper lemmas about token decoding and blacklisting
-/

theorem jwtDecode_some_inv {t : Token} {pub : String} {now : Int}
    {c : Claims} (h : jwtDecode t pub now = some c) :
    ∃ k, t = Token.signed c k ∧ (pubKeyOf k == pub) = true
      ∧ ∀ e, c.exp = some e → now ≤ e := by
  cases t with
  | malformed raw => simp [jwtDecode] at h
  | signed c' k =>
    simp only [jwtDecode] at h
    by_cases hk : (pubKeyOf k == pub) = true
    · rw [if_pos hk] at h
      cases he : c'.exp with
      | none =>
        simp only [he] at h
        cases h
        exact ⟨k, rfl, hk, by intro e hce; rw [he] at hce; cases hce⟩
      | some e =>
        simp only [he] at h
        by_cases hlt : e < now
        · rw [if_pos hlt] at h
          cases h
        · rw [if_neg hlt] at h
          cases h
          exact ⟨k, rfl, hk, by
            intro e' hce
            rw [he] at hce
            cases hce
            omega⟩
    · rw [if_neg hk] at h
      cases h

/-- Full case analysis of `blacklist_token` with the blacklist enabled:
either it writes `blacklist_token:{jti}` with ttl `exp - now > 0` and
returns `True`, or it returns `False` because decode failed, the `jti` or
`exp` claim is missing, or the remaining ttl is non-positive. -/
theorem blacklist_token_cases (s : Settings) (st : Store) (now : Int)
    (t : Token) (hb : s.TOKEN_BLACKLIST_ENABLED = true) :
    (∃ c jti e st', jwtDecode t s.PUBLIC_KEY now = some c
      ∧ c.jti = some jti ∧ c.exp = some e ∧ 0 < e - now
      ∧ st.setex now (Key.blacklist jti) (max (e - now) 0) "1" = some st'
      ∧ blacklist_token s st now t = (true, st'))
    ∨ (blacklist_token s st now t = (false, st)
        ∧ (jwtDecode t s.PUBLIC_KEY now = none
           ∨ ∃ c, jwtDecode t s.PUBLIC_KEY now = some c
               ∧ (c.jti = none ∨ c.exp = none
                  ∨ ∃ e, c.exp = some e ∧ e - now ≤ 0))) := by
  cases hd : jwtDecode t s.PUBLIC_KEY now with
  | none => exact Or.inr ⟨by simp [blacklist_token, hb, hd], Or.inl rfl⟩
  | some c =>
    cases hj : c.jti with
    | none =>
      exact Or.inr ⟨by simp [blacklist_token, hb, hd, hj],
        Or.inr ⟨c, rfl, Or.inl hj⟩⟩
    | some jti =>
      cases he : c.exp with
      | none =>
        exact Or.inr ⟨by simp [blacklist_token, hb, hd, hj, he],
          Or.inr ⟨c, rfl, Or.inr (Or.inl he)⟩⟩
      | some e =>
        cases hs : st.setex now (Key.blacklist jti) (max (e - now) 0) "1" with
        | none =>
          have httl : e - now ≤ 0 := by
            unfold Store.setex at hs
            by_cases h0 : max (e - now) 0 ≤ 0
            · omega
            · rw [if_neg h0] at hs
              cases hs
          exact Or.inr ⟨by simp [blacklist_token, hb, hd, hj, he, hs],
            Or.inr ⟨c, rfl, Or.inr (Or.inr ⟨e, he, httl⟩)⟩⟩
        | some st' =>
          have httl : 0 < e - now := by
            unfold Store.setex at hs
            by_cases h0 : max (e - now) 0 ≤ 0
            · rw [if_pos h0] at hs
              cases hs
            · omega
          exact Or.inl ⟨c, jti, e, st', rfl, hj, he, httl, hs,
            by simp [blacklist_token, hb, hd, hj, he, hs]⟩

/-!
## Claim theorems
-/

/-- C10: whenever `TOKEN_BLACKLIST_ENABLED` is false, `blacklist_token`
returns true for every input without writing to the store,
`is_token_blacklisted` returns false for every payload, and
`verify_token` reduces to the bare decode — so a blacklisted but
otherwise valid token still verifies; the revocation guarantee holds only
with the flag enabled. -/
theorem C10_disabled_blacklist_noop (s : Settings)
    (hb : s.TOKEN_BLACKLIST_ENABLED = false) :
    (∀ st now t, blacklist_token s st now t = (true, st))
    ∧ (∀ st now payload, is_token_blacklisted s st now payload = false)
    ∧ (∀ st now t, verify_token s st now t = jwtDecode t s.PUBLIC_KEY now) := by
  refine ⟨fun st now t => by simp [blacklist_token, hb],
    fun st now payload => by simp [is_token_blacklisted, hb],
    fun st now t => ?_⟩
  cases hd : jwtDecode t s.PUBLIC_KEY now with
  | none => simp [verify_token, hd]
  | some payload => simp [verify_token, hd, is_token_blacklisted, hb]

/-- Witness for C10: with the flag off, blacklisting a valid token writes
nothing, and the token — though its id sits in the blacklist namespace —
still verifies. -/
theorem C10_disabled_blacklist_noop_witness :
    blacklist_token ⟨false, "k", "pub:k", 30, 7⟩
        [⟨Key.blacklist "j", "1", 100⟩] 0
        (Token.signed ⟨some "u1", some "alice", some "j", some 100⟩ "k")
      = (true, [⟨Key.blacklist "j", "1", 100⟩])
    ∧ verify_token ⟨false, "k", "pub:k", 30, 7⟩
        [⟨Key.blacklist "j", "1", 100⟩] 0
        (Token.signed ⟨some "u1", some "alice", some "j", some 100⟩ "k")
      = some ⟨some "u1", some "alice", some "j", some 100⟩ :=
  ⟨(C10_disabled_blacklist_noop ⟨false, "k", "pub:k", 30, 7⟩ rfl).1 _ _ _,
    by
      rw [(C10_disabled_blacklist_noop ⟨false, "k", "pub:k", 30, 7⟩ rfl).2.2]
      decide⟩

/-- C7: verifying a freshly issued access token succeeds and returns the
same subject id and display name, for any verification instant up to the
token's expiry and as long as its token id is not blacklisted. -/
theorem C7_issue_verify_round_trip (s : Settings) (st : Store)
    (now now' : Int) (jti sub username : String) (delta : Option Int)
    (hkey : s.PUBLIC_KEY = pubKeyOf s.PRIVATE_KEY)
    (hexp : now' ≤ accessExp s now delta)
    (hbl : st.get now' (Key.blacklist jti) = none) :
    verify_token s st now' (create_access_token s now jti sub username delta)
      = some ⟨some sub, some username, some jti, some (accessExp s now delta)⟩ := by
  have hc : create_access_token s now jti sub username delta
      = Token.signed ⟨some sub, some username, some jti,
          some (accessExp s now delta)⟩ s.PRIVATE_KEY := by
    cases delta <;> rfl
  have hnl : ¬ accessExp s now delta < now' := not_lt.mpr hexp
  rw [hc]
  simp [verify_token, jwtDecode, hkey, hnl, is_token_blacklisted, hbl]

/-- Witness for C7 at a concrete issuance and a later verification
instant. -/
theorem C7_issue_verify_round_trip_witness :
    verify_token ⟨true, "k", "pub:k", 30, 7⟩ [] 100
        (create_access_token ⟨true, "k", "pub:k", 30, 7⟩ 0 "j" "u1" "alice"
          (some 1800))
      = some ⟨some "u1", some "alice", some "j", some 1800⟩ :=
  C7_issue_verify_round_trip ⟨true, "k", "pub:k", 30, 7⟩ [] 0 100 "j" "u1"
    "alice" (some 1800) rfl (by decide) rfl

/-- C1: with the blacklist enabled (the regime in which the revocation
feature operates; see C10 for the disabled regime), once
`blacklist_token t` reports success, `verify_token t` fails against the
resulting store at every subsequent instant — before the token's expiry
the blacklist entry is still live, and after it the decode itself
fails. -/
theorem C1_blacklist_then_verify_fails (s : Settings) (st : Store)
    (now : Int) (t : Token) (hb : s.TOKEN_BLACKLIST_ENABLED = true)
    (hok : (blacklist_token s st now t).1 = true) :
    ∀ now', now ≤ now' →
      verify_token s (blacklist_token s st now t).2 now' t = none := by
  intro now' hle
  rcases blacklist_token_cases s st now t hb with
    ⟨c, jti, e, st', hd, hj, he, httl, hs, heq⟩ | ⟨heq, _⟩
  · have h2 : (blacklist_token s st now t).2 = st' := by rw [heq]
    rw [h2]
    obtain ⟨k, htk, hk, _⟩ := jwtDecode_some_inv hd
    subst htk
    by_cases hlt : e < now'
    · have hdec : jwtDecode (Token.signed c k) s.PUBLIC_KEY now' = none := by
        simp [jwtDecode, hk, he, hlt]
      simp [verify_token, hdec]
    · have hdec : jwtDecode (Token.signed c k) s.PUBLIC_KEY now' = some c := by
        simp [jwtDecode, hk, he, hlt]
      have hget := Store.get_setex_self now' hs
      rw [max_eq_left (by omega : (0:Int) ≤ e - now)] at hget
      rw [(by omega : now + (e - now) = e)] at hget
      have hbl' : is_token_blacklisted s st' now' c = true := by
        unfold is_token_blacklisted
        rw [if_neg (by simp [hb])]
        simp only [hj]
        rw [hget, if_pos (by omega)]
        rfl
      simp [verify_token, hdec, hbl']
  · rw [heq] at hok
    simp at hok

/-- Witness for C1: blacklist a concrete valid unexpired token, then
observe that verification fails at a later instant. -/
theorem C1_blacklist_then_verify_fails_witness :
    (blacklist_token ⟨true, "k", "pub:k", 30, 7⟩ [] 0
        (Token.signed ⟨some "u1", some "alice", some "j", some 100⟩ "k")).1
      = true
    ∧ verify_token ⟨true, "k", "pub:k", 30, 7⟩
        (blacklist_token ⟨true, "k", "pub:k", 30, 7⟩ [] 0
          (Token.signed ⟨some "u1", some "alice", some "j", some 100⟩ "k")).2
        50 (Token.signed ⟨some "u1", some "alice", some "j", some 100⟩ "k")
      = none :=
  ⟨by decide,
    C1_blacklist_then_verify_fails ⟨true, "k", "pub:k", 30, 7⟩ [] 0
      (Token.signed ⟨some "u1", some "alice", some "j", some 100⟩ "k") rfl
      (by decide) 50 (by decide)⟩

/-- C8: with the blacklist enabled, for tokens that carry an expiry claim
(as every token this system issues does), `blacklist_token` fails exactly
when decoding fails, when the remaining ttl `exp - now` is already
non-positive, or when the token lacks a `jti`; and on success the entry
it writes for the `jti` expires exactly at the token's own expiry — the
ttl is the remaining lifetime, never a fixed value, so no entry outlives
the token. -/
theorem C8_blacklist_ttl (s : Settings) (st : Store) (now : Int)
    (t : Token) (hb : s.TOKEN_BLACKLIST_ENABLED = true)
    (hexp : ∀ c k, t = Token.signed c k → c.exp.isSome = true) :
    ((blacklist_token s st now t).1 = false ↔
      jwtDecode t s.PUBLIC_KEY now = none
        ∨ ∃ c, jwtDecode t s.PUBLIC_KEY now = some c
            ∧ (c.jti = none ∨ ∃ e, c.exp = some e ∧ e - now ≤ 0))
    ∧ (∀ c jti e, jwtDecode t s.PUBLIC_KEY now = some c → c.jti = some jti
        → c.exp = some e → (blacklist_token s st now t).1 = true
        → ∀ now2, ((blacklist_token s st now t).2).get now2 (Key.blacklist jti)
            = if now2 ≤ e then some "1" else none) := by
  rcases blacklist_token_cases s st now t hb with
    ⟨c, jti, e, st', hd, hj, he, httl, hs, heq⟩ | ⟨heq, hwhy⟩
  · constructor
    · constructor
      · intro hfalse
        rw [heq] at hfalse
        simp at hfalse
      · rintro (hnone | ⟨c', hd', hjn | ⟨e', he', hle'⟩⟩)
        · rw [hd] at hnone
          cases hnone
        · rw [hd] at hd'
          cases hd'
          rw [hj] at hjn
          cases hjn
        · rw [hd] at hd'
          cases hd'
          rw [he] at he'
          cases he'
          omega
    · intro c' jti' e' hd' hj' he' _ now2
      rw [hd] at hd'
      cases hd'
      rw [hj] at hj'
      cases hj'
      rw [he] at he'
      cases he'
      have h2 : (blacklist_token s st now t).2 = st' := by rw [heq]
      rw [h2]
      have hget := Store.get_setex_self now2 hs
      rw [max_eq_left (by omega : (0:Int) ≤ e - now)] at hget
      rw [(by omega : now + (e - now) = e)] at hget
      exact hget
  · constructor
    · constructor
      · intro _
        rcases hwhy with hnone | ⟨c, hd, hjn | hen | ⟨e, he, hle⟩⟩
        · exact Or.inl hnone
        · exact Or.inr ⟨c, hd, Or.inl hjn⟩
        · obtain ⟨k, htk, _, _⟩ := jwtDecode_some_inv hd
          have := hexp c k htk
          rw [hen] at this
          simp at this
        · exact Or.inr ⟨c, hd, Or.inr ⟨e, he, hle⟩⟩
      · intro _
        rw [heq]
    · intro c jti e hd hj he htrue now2
      rw [heq] at htrue
      simp at htrue

/-- Witness for C8: a concrete valid token with 100 seconds of remaining
life is accepted, and the written blacklist entry expires exactly with
the token. -/
theorem C8_blacklist_ttl_witness :
    ((blacklist_token ⟨true, "k", "pub:k", 30, 7⟩ [] 0
          (Token.signed ⟨some "u1", some "alice", some "j", some 100⟩ "k")).1
        = false ↔
      jwtDecode (Token.signed ⟨some "u1", some "alice", some "j", some 100⟩ "k")
          "pub:k" 0 = none
        ∨ ∃ c, jwtDecode
              (Token.signed ⟨some "u1", some "alice", some "j", some 100⟩ "k")
              "pub:k" 0 = some c
            ∧ (c.jti = none ∨ ∃ e, c.exp = some e ∧ e - 0 ≤ 0))
    ∧ ((blacklist_token ⟨true, "k", "pub:k", 30, 7⟩ [] 0
          (Token.signed ⟨some "u1", some "alice", some "j", some 100⟩ "k")).2).get
        100 (Key.blacklist "j") = some "1"
    ∧ ((blacklist_token ⟨true, "k", "pub:k", 30, 7⟩ [] 0
          (Token.signed ⟨some "u1", some "alice", some "j", some 100⟩ "k")).2).get
        101 (Key.blacklist "j") = none := by
  have h := C8_blacklist_ttl ⟨true, "k", "pub:k", 30, 7⟩ [] 0
    (Token.signed ⟨some "u1", some "alice", some "j", some 100⟩ "k") rfl
    (by intro c k hck; cases hck; rfl)
  refine ⟨h.1, ?_, ?_⟩
  · rw [h.2 ⟨some "u1", some "alice", some "j", some 100⟩ "j" 100 (by decide)
      rfl rfl (by decide) 100]
    decide
  · rw [h.2 ⟨some "u1", some "alice", some "j", some 100⟩ "j" 100 (by decide)
      rfl rfl (by decide) 101]
    decide

/-- C5 counterexample: a token whose signature verifies and whose expiry
is in the future but whose `jti` is blacklisted produces exactly the same
outcome (`None`, and the same endpoint response) as a malformed token —
there is no distinguished `Revoked` outcome. -/
theorem C5_counterexample :
    jwtDecode (Token.signed ⟨some "u1", some "alice", some "j", some 100⟩ "k")
        "pub:k" 0
      = some ⟨some "u1", some "alice", some "j", some 100⟩
    ∧ verify_token ⟨true, "k", "pub:k", 30, 7⟩
        [⟨Key.blacklist "j", "1", 100⟩] 0
        (Token.signed ⟨some "u1", some "alice", some "j", some 100⟩ "k")
      = verify_token ⟨true, "k", "pub:k", 30, 7⟩
          [⟨Key.blacklist "j", "1", 100⟩] 0 (Token.malformed "x")
    ∧ verify_token_endpoint ⟨true, "k", "pub:k", 30, 7⟩
        [⟨Key.blacklist "j", "1", 100⟩] 0
        (Token.signed ⟨some "u1", some "alice", some "j", some 100⟩ "k")
      = verify_token_endpoint ⟨true, "k", "pub:k", 30, 7⟩
          [⟨Key.blacklist "j", "1", 100⟩] 0 (Token.malformed "x") := by
  refine ⟨by decide, by decide, by decide⟩

/-- C5 (amended): a blacklisted but otherwise valid token does fail
verification, but the outcome is the same `None` — and the `/verify`
endpoint returns the same response — as for any token whose decode fails;
the `Revoked` case is not distinguishable by callers. -/
theorem C5_revoked_fails_indistinguishably (s : Settings) (st : Store)
    (now : Int) (t : Token) (c : Claims)
    (hd : jwtDecode t s.PUBLIC_KEY now = some c)
    (hbl : is_token_blacklisted s st now c = true) :
    verify_token s st now t = none
    ∧ ∀ t', jwtDecode t' s.PUBLIC_KEY now = none →
        verify_token s st now t = verify_token s st now t'
        ∧ verify_token_endpoint s st now t = verify_token_endpoint s st now t' := by
  have hv : verify_token s st now t = none := by simp [verify_token, hd, hbl]
  refine ⟨hv, fun t' hd' => ?_⟩
  have hv' : verify_token s st now t' = none := by simp [verify_token, hd']
  exact ⟨by rw [hv, hv'], by simp [verify_token_endpoint, hv, hv']⟩

/-- Witness for the amended C5 at a concrete blacklisted token and a
concrete malformed token. -/
theorem C5_revoked_fails_indistinguishably_witness :
    verify_token ⟨true, "k", "pub:k", 30, 7⟩ [⟨Key.blacklist "j", "1", 100⟩]
        0 (Token.signed ⟨some "u1", some "alice", some "j", some 100⟩ "k")
      = none
    ∧ verify_token_endpoint ⟨true, "k", "pub:k", 30, 7⟩
        [⟨Key.blacklist "j", "1", 100⟩] 0
        (Token.signed ⟨some "u1", some "alice", some "j", some 100⟩ "k")
      = verify_token_endpoint ⟨true, "k", "pub:k", 30, 7⟩
          [⟨Key.blacklist "j", "1", 100⟩] 0 (Token.malformed "x") :=
  ⟨(C5_revoked_fails_indistinguishably ⟨true, "k", "pub:k", 30, 7⟩
      [⟨Key.blacklist "j", "1", 100⟩] 0
      (Token.signed ⟨some "u1", some "alice", some "j", some 100⟩ "k")
      ⟨some "u1", some "alice", some "j", some 100⟩ (by decide) (by decide)).1,
    ((C5_revoked_fails_indistinguishably ⟨true, "k", "pub:k", 30, 7⟩
      [⟨Key.blacklist "j", "1", 100⟩] 0
      (Token.signed ⟨some "u1", some "alice", some "j", some 100⟩ "k")
      ⟨some "u1", some "alice", some "j", some 100⟩ (by decide) (by decide)).2
      (Token.malformed "x") (by decide)).2⟩

/-- C2 counterexample: a refresh presented for a subject that exists but
has `is_active = false` still succeeds, and it revokes the old refresh
token — the flow never consults `is_active`. -/
theorem C2_counterexample :
    (⟨"u1", "alice", false, false⟩ : AuthUser).is_active = false
    ∧ get_by_id [⟨"u1", "alice", false, false⟩] "u1"
        = some ⟨"u1", "alice", false, false⟩
    ∧ isSuccessResult
        (refresh_flow ⟨true, "k", "pub:k", 30, 7⟩
          [⟨"u1", "alice", false, false⟩] [⟨Key.refresh "r1", "u1", 1000⟩] 0
          ⟨Token.malformed "old", "r1", "j2", "r2"⟩).1
      = true
    ∧ verify_refresh_token
        (refresh_flow ⟨true, "k", "pub:k", 30, 7⟩
          [⟨"u1", "alice", false, false⟩] [⟨Key.refresh "r1", "u1", 1000⟩] 0
          ⟨Token.malformed "old", "r1", "j2", "r2"⟩).2 0 "r1"
      = none := by
  refine ⟨rfl, by decide, by decide, by decide⟩

/-- C2 (amended): the flow revokes the old refresh token only after the
resolved subject is confirmed to exist: when the refresh token is invalid
or the subject is missing from the credential store, the flow fails with
401 and leaves the store untouched (no revocation, no new tokens). The
subject's `is_active` flag is not checked. -/
theorem C2_revoke_only_after_existence_check (s : Settings) (db : UserDb)
    (now : Int) (req : RefreshRequest) :
    (∀ st, verify_refresh_token st now req.oldRefresh = none →
      refresh_flow s db st now req = (.unauthorized, st))
    ∧ (∀ st uid, verify_refresh_token st now req.oldRefresh = some uid →
        get_by_id db uid = none →
        refresh_flow s db st now req = (.unauthorized, st)) := by
  constructor
  · intro st hv
    simp [refresh_flow, hv]
  · intro st uid hv hu
    simp [refresh_flow, hv, hu]

/-- Witness for the amended C2: a live refresh token whose subject is
missing from the credential store is rejected without being revoked. -/
theorem C2_revoke_only_after_existence_check_witness :
    refresh_flow ⟨true, "k", "pub:k", 30, 7⟩ []
        [⟨Key.refresh "r1", "u1", 1000⟩] 0
        ⟨Token.malformed "old", "r1", "j2", "r2"⟩
      = (.unauthorized, [⟨Key.refresh "r1", "u1", 1000⟩]) :=
  (C2_revoke_only_after_existence_check ⟨true, "k", "pub:k", 30, 7⟩ [] 0
    ⟨Token.malformed "old", "r1", "j2", "r2"⟩).2
    [⟨Key.refresh "r1", "u1", 1000⟩] "u1" (by decide) (by decide)

/-- C4: the consumer acknowledges every message — including one whose
application fails transiently (`storeOk = false`, modelling an
unavailable projection store): every exception is caught inside the
handlers, so `message.process()` always exits normally and acknowledges,
and the broker never redelivers. This contradicts the documented
at-least-once design, which requires transient failures not to be
acknowledged. -/
theorem C4_transient_failure_still_acked :
    process_message false []
        (MessageBody.valid (some "user.created")
          ⟨some "u1", some "alice", some false, some true⟩)
      = (AckResult.ack, [])
    ∧ ∀ storeOk t m, (process_message storeOk t m).1 = AckResult.ack := by
  refine ⟨rfl, fun storeOk t m => ?_⟩
  cases m with
  | invalidJson raw => rfl
  | valid eventType userData =>
    cases eventType with
    | none => rfl
    | some et =>
      by_cases h1 : (et == "user.created") = true
      · simp [process_message, h1]
      · by_cases h2 : (et == "user.updated") = true
        · simp [process_message, h1, h2]
        · by_cases h3 : (et == "user.deleted") = true
          · simp [process_message, h1, h2, h3]
          · simp [process_message, h1, h2, h3]

theorem setex_some_ttl_pos {st st' : Store} {now ttl : Int} {k : Key}
    {v : String} (h : st.setex now k ttl v = some st') : 0 < ttl := by
  unfold Store.setex at h
  by_cases h0 : ttl ≤ 0
  · rw [if_pos h0] at h
    cases h
  · omega

/-- C3: (a) when `/refresh` succeeds, the old refresh token's entry has
been deleted (`verify_refresh_token old = absent`) and a fresh entry maps
the newly issued refresh token to the resolved subject; (b) in the
stepwise flow, when revocation reports that no entry existed the request
finishes with 400 and issues nothing. -/
theorem C3_refresh_rotation (s : Settings) (db : UserDb) (now : Int)
    (req : RefreshRequest) (hfresh : req.newRefresh ≠ req.oldRefresh) :
    (∀ st A R st', refresh_flow s db st now req = (.success A R, st') →
      verify_refresh_token st' now req.oldRefresh = none
      ∧ R = req.newRefresh
      ∧ ∃ uid dbUser, verify_refresh_token st now req.oldRefresh = some uid
          ∧ get_by_id db uid = some dbUser
          ∧ verify_refresh_token st' now req.newRefresh = some dbUser.id)
    ∧ (∀ st dbUser, (revoke_refresh_token st now req.oldRefresh).1 = false →
        stepProc s db now req (.revoke dbUser) st
          = (.done .badRequest, (revoke_refresh_token st now req.oldRefresh).2)) := by
  constructor
  · intro st A R st' h
    cases hv : verify_refresh_token st now req.oldRefresh with
    | none => simp [refresh_flow, hv] at h
    | some uid =>
      cases hu : get_by_id db uid with
      | none => simp [refresh_flow, hv, hu] at h
      | some dbUser =>
        have hrev : (revoke_refresh_token st now req.oldRefresh).1 = true := by
          unfold revoke_refresh_token
          rw [Store.del_fst]
          unfold verify_refresh_token at hv
          rw [hv]
          rfl
        cases hcr : create_refresh_token s
            (blacklist_token s (revoke_refresh_token st now req.oldRefresh).2
              now req.oldAccess).2 now req.newRefresh dbUser.id with
        | none => simp [refresh_flow, hv, hu, hrev, hcr] at h
        | some st'' =>
          simp only [refresh_flow, hv, hu, hrev, Bool.not_true,
            Bool.false_eq_true, if_false, hcr] at h
          rw [Prod.mk.injEq, RefreshResult.success.injEq] at h
          obtain ⟨⟨hA, hR⟩, hst⟩ := h
          subst hst
          have hcr' : Store.setex
              (blacklist_token s (revoke_refresh_token st now req.oldRefresh).2
                now req.oldAccess).2 now (Key.refresh req.newRefresh)
              (s.REFRESH_TOKEN_EXPIRE_DAYS * 24 * 60 * 60) dbUser.id
              = some st'' := hcr
          have hne : Key.refresh req.oldRefresh ≠ Key.refresh req.newRefresh := by
            intro hc
            injection hc with hc'
            exact hfresh hc'.symm
          refine ⟨?_, hR.symm, uid, dbUser, rfl, hu, ?_⟩
          · show st''.get now (Key.refresh req.oldRefresh) = none
            rw [Store.get_setex_ne now (Key.refresh req.oldRefresh) hne hcr',
              get_refresh_blacklist_token]
            exact Store.get_del_self st now now (Key.refresh req.oldRefresh)
          · show st''.get now (Key.refresh req.newRefresh) = some dbUser.id
            rw [Store.get_setex_self now hcr',
              if_pos (by have := setex_some_ttl_pos hcr'; omega)]
  · intro st dbUser hrev
    simp [stepProc, hrev]

/-- Witness for C3 at a concrete successful refresh and at a concrete
store in which the revocation step finds no entry. -/
theorem C3_refresh_rotation_witness :
    (verify_refresh_token
        (refresh_flow ⟨true, "k", "pub:k", 30, 7⟩
          [⟨"u1", "alice", false, true⟩] [⟨Key.refresh "r1", "u1", 1000⟩] 0
          ⟨Token.malformed "old", "r1", "j2", "r2"⟩).2 0 "r1" = none
      ∧ verify_refresh_token
          (refresh_flow ⟨true, "k", "pub:k", 30, 7⟩
            [⟨"u1", "alice", false, true⟩] [⟨Key.refresh "r1", "u1", 1000⟩] 0
            ⟨Token.malformed "old", "r1", "j2", "r2"⟩).2 0 "r2" = some "u1")
    ∧ stepProc ⟨true, "k", "pub:k", 30, 7⟩ [⟨"u1", "alice", false, true⟩] 0
        ⟨Token.malformed "old", "r1", "j2", "r2"⟩
        (PC.revoke ⟨"u1", "alice", false, true⟩) []
      = (PC.done RefreshResult.badRequest, []) := by
  have h := C3_refresh_rotation ⟨true, "k", "pub:k", 30, 7⟩
    [⟨"u1", "alice", false, true⟩] 0 ⟨Token.malformed "old", "r1", "j2", "r2"⟩
    (by decide)
  constructor
  · have h1 := h.1 [⟨Key.refresh "r1", "u1", 1000⟩]
      (create_access_token ⟨true, "k", "pub:k", 30, 7⟩ 0 "j2" "u1" "alice"
        (some 1800))
      "r2"
      (refresh_flow ⟨true, "k", "pub:k", 30, 7⟩ [⟨"u1", "alice", false, true⟩]
        [⟨Key.refresh "r1", "u1", 1000⟩] 0
        ⟨Token.malformed "old", "r1", "j2", "r2"⟩).2
      (by decide)
    obtain ⟨hold, _, uid, dbUser, hv, hu, hnew⟩ := h1
    refine ⟨hold, ?_⟩
    have huid : uid = "u1" := by
      have : some uid = some "u1" := by rw [← hv]; decide
      injection this
    subst huid
    have hdb : dbUser = (⟨"u1", "alice", false, true⟩ : AuthUser) := by
      have : some dbUser = some (⟨"u1", "alice", false, true⟩ : AuthUser) := by
        rw [← hu]; decide
      injection this
    rw [hdb] at hnew
    exact hnew
  · exact h.2 [] ⟨"u1", "alice", false, true⟩ (by decide)

theorem find?_cons_none {α : Type} {p : α → Bool} {a : α} {l : List α}
    (h : (a :: l).find? p = none) : p a = false ∧ l.find? p = none := by
  by_cases hp : p a = true
  · rw [List.find?_cons_of_pos _ hp] at h
    cases h
  · rw [List.find?_cons_of_neg _ hp] at h
    exact ⟨by simpa using hp, h⟩

theorem find?_append_none {α : Type} {p : α → Bool} {t l : List α}
    (h : t.find? p = none) : (t ++ l).find? p = l.find? p := by
  induction t with
  | nil => rfl
  | cons a t ih =>
    obtain ⟨hpa, ht⟩ := find?_cons_none h
    rw [List.cons_append, List.find?_cons_of_neg _ (by simp [hpa]), ih ht]

theorem countByUserId_append (t l : UserTable) (uid : String) :
    countByUserId (t ++ l) uid = countByUserId t uid + countByUserId l uid := by
  unfold countByUserId
  rw [List.filter_append, List.length_append]

theorem countByUserId_eq_zero {t : UserTable} {uid : String}
    (h : t.find? (fun r => r.user_id == uid) = none) :
    countByUserId t uid = 0 := by
  unfold countByUserId
  have := List.find?_eq_none.mp h
  rw [List.filter_eq_nil_iff.mpr (by intro a ha; simpa using this a ha)]
  rfl

theorem one_le_countByUserId {t : UserTable} {uid : String} {row : UserRow}
    (h : t.find? (fun r => r.user_id == uid) = some row) :
    1 ≤ countByUserId t uid := by
  unfold countByUserId
  have hmem : row ∈ t := List.mem_of_find?_eq_some h
  have hp := List.find?_some h
  have : row ∈ t.filter (fun r => r.user_id == uid) :=
    List.mem_filter.mpr ⟨hmem, hp⟩
  exact List.length_pos.mpr (List.ne_nil_of_mem this)

theorem find?_updateFirst (t : UserTable) (uid : String) (f : UserRow → UserRow)
    (hpres : ∀ r, (f r).user_id = r.user_id) :
    (updateFirst t uid f).find? (fun r => r.user_id == uid)
      = (t.find? (fun r => r.user_id == uid)).map f := by
  induction t with
  | nil => rfl
  | cons a t ih =>
    by_cases hp : (a.user_id == uid) = true
    · have hpf : ((f a).user_id == uid) = true := by
        rw [hpres]
        exact hp
      rw [updateFirst, if_pos hp]
      simp only [List.find?, hp, hpf]
      rfl
    · have hp' : (a.user_id == uid) = false := by simpa using hp
      rw [updateFirst, if_neg hp]
      simp only [List.find?, hp']
      exact ih

theorem countByUserId_updateFirst (t : UserTable) (uid : String)
    (f : UserRow → UserRow) (hpres : ∀ r, (f r).user_id = r.user_id) :
    countByUserId (updateFirst t uid f) uid = countByUserId t uid := by
  induction t with
  | nil => rfl
  | cons a t ih =>
    unfold countByUserId at ih ⊢
    by_cases hp : (a.user_id == uid) = true
    · have hpf : ((f a).user_id == uid) = true := by
        rw [hpres]
        exact hp
      rw [updateFirst, if_pos hp]
      simp only [List.filter, hp, hpf, List.length_cons]
    · have hp' : (a.user_id == uid) = false := by simpa using hp
      rw [updateFirst, if_neg hp]
      simp only [List.filter, hp']
      exact ih

theorem updateFirst_append_of_find?_none {t : UserTable} {uid : String}
    (l : UserTable) (f : UserRow → UserRow)
    (h : t.find? (fun r => r.user_id == uid) = none) :
    updateFirst (t ++ l) uid f = t ++ updateFirst l uid f := by
  induction t with
  | nil => rfl
  | cons a t ih =>
    obtain ⟨hpa, ht⟩ := find?_cons_none h
    rw [List.cons_append, updateFirst, if_neg (by simp [hpa]), ih ht,
      List.cons_append]

theorem updateFirst_updateFirst (t : UserTable) (uid : String)
    (f : UserRow → UserRow) (hpres : ∀ r, (f r).user_id = r.user_id)
    (hidem : ∀ r, f (f r) = f r) :
    updateFirst (updateFirst t uid f) uid f = updateFirst t uid f := by
  induction t with
  | nil => rfl
  | cons a t ih =>
    by_cases hp : (a.user_id == uid) = true
    · have hpf : ((f a).user_id == uid) = true := by
        rw [hpres]
        exact hp
      rw [updateFirst, if_pos hp, updateFirst, if_pos hpf, hidem]
    · rw [updateFirst, if_neg hp, updateFirst, if_neg hp, ih]

theorem sync_user_none_eq (t : UserTable) (uid uname : String)
    (ia iact : Bool) :
    sync_user t uid uname none ia iact =
      match get_by_user_id t uid with
      | some _ => updateFirst t uid
          (fun row => ⟨row.user_id, uname, row.fullname, ia, iact⟩)
      | none => t ++ [⟨uid, uname, none, ia, iact⟩] := by
  unfold sync_user
  cases get_by_user_id t uid <;> rfl

/-- C6: replication is an idempotent upsert by external id — under the
unique-index invariant (at most one projection row per external id),
applying the same `created` event twice leaves exactly one row for that
id, identical to applying it once; and the `created` and `updated`
handlers are the same operation. -/
theorem C6_idempotent_upsert :
    (∀ t uid uname ia iact, countByUserId t uid ≤ 1 →
      sync_user (sync_user t uid uname none ia iact) uid uname none ia iact
          = sync_user t uid uname none ia iact
        ∧ countByUserId (sync_user t uid uname none ia iact) uid = 1)
    ∧ (∀ storeOk t d, handle_user_created storeOk t d
        = handle_user_updated storeOk t d) := by
  constructor
  · intro t uid uname ia iact hcount
    have hpres : ∀ r : UserRow,
        ((fun row => (⟨row.user_id, uname, row.fullname, ia, iact⟩ : UserRow)) r).user_id
          = r.user_id := fun r => rfl
    cases hf : get_by_user_id t uid with
    | some row0 =>
      have hf' : t.find? (fun r => r.user_id == uid) = some row0 := hf
      have hcount1 : countByUserId t uid = 1 :=
        le_antisymm hcount (one_le_countByUserId hf')
      have hf2 : get_by_user_id
          (updateFirst t uid
            (fun row => ⟨row.user_id, uname, row.fullname, ia, iact⟩)) uid
          = some (⟨row0.user_id, uname, row0.fullname, ia, iact⟩ : UserRow) := by
        unfold get_by_user_id
        rw [find?_updateFirst _ _ _ hpres, hf']
        rfl
      constructor
      · rw [sync_user_none_eq t, hf, sync_user_none_eq, hf2]
        exact updateFirst_updateFirst t uid _ hpres (fun r => rfl)
      · rw [sync_user_none_eq t, hf, countByUserId_updateFirst _ _ _ hpres,
          hcount1]
    | none =>
      have hf' : t.find? (fun r => r.user_id == uid) = none := hf
      have hsingle : List.find? (fun r => r.user_id == uid)
          [(⟨uid, uname, none, ia, iact⟩ : UserRow)]
          = some ⟨uid, uname, none, ia, iact⟩ := by
        simp [List.find?]
      have hf2 : get_by_user_id (t ++ [⟨uid, uname, none, ia, iact⟩]) uid
          = some ⟨uid, uname, none, ia, iact⟩ := by
        unfold get_by_user_id
        rw [find?_append_none hf', hsingle]
      constructor
      · rw [sync_user_none_eq t, hf, sync_user_none_eq, hf2,
          updateFirst_append_of_find?_none _ _ hf']
        show t ++ updateFirst [⟨uid, uname, none, ia, iact⟩] uid _ = _
        rw [updateFirst, if_pos (by simp)]
      · rw [sync_user_none_eq t, hf, countByUserId_append,
          countByUserId_eq_zero hf']
        simp [countByUserId, List.filter]
  · intro storeOk t d
    rfl

/-- Witness for C6 at a concrete table and a concrete `created` payload:
a duplicate of the event changes nothing and one row remains. -/
theorem C6_idempotent_upsert_witness :
    sync_user (sync_user [] "u1" "alice" none false true) "u1" "alice" none
        false true
      = sync_user [] "u1" "alice" none false true
    ∧ countByUserId (sync_user [] "u1" "alice" none false true) "u1" = 1
    ∧ handle_user_created true [] ⟨some "u1", some "alice", some false, some true⟩
      = handle_user_updated true [] ⟨some "u1", some "alice", some false, some true⟩ :=
  ⟨(C6_idempotent_upsert.1 [] "u1" "alice" false true (by decide)).1,
    (C6_idempotent_upsert.1 [] "u1" "alice" false true (by decide)).2,
    C6_idempotent_upsert.2 true [] ⟨some "u1", some "alice", some false, some true⟩⟩

theorem RefreshInv.swap {now : Int} {r uid : String} {st : Store}
    {pa pb : PC} (h : RefreshInv now r uid st pa pb) :
    RefreshInv now r uid st pb pa :=
  ⟨h.deadB, h.deadA, fun hc => h.mutex ⟨hc.2, hc.1⟩,
    fun hb ha => ⟨(h.phase1 ha hb).1, (h.phase1 ha hb).2.2,
      (h.phase1 ha hb).2.1⟩,
    h.uidB, h.uidA⟩

theorem isSuccess_passedRevoke {pc : PC} (h : isSuccess pc = true) :
    passedRevoke pc = true := by
  cases pc with
  | done res => cases res <;> simp_all [isSuccess, passedRevoke]
  | _ => simp [isSuccess] at h

theorem isDone_success_or_failure {pc : PC} (h : isDone pc = true) :
    isSuccess pc = true ∨ isFailure pc = true := by
  cases pc with
  | done res => cases res <;> simp [isSuccess, isFailure]
  | _ => simp [isDone] at h

/-- One step of either request preserves the concurrency invariant. -/
theorem refreshInv_step (s : Settings) (db : UserDb) (now : Int)
    (req : RefreshRequest) (r uid : String) (u0 : AuthUser)
    (hreq : req.oldRefresh = r) (hfresh : req.newRefresh ≠ r)
    (hdays : 0 < s.REFRESH_TOKEN_EXPIRE_DAYS)
    (huser : get_by_id db uid = some u0)
    (st : Store) (pa pb : PC)
    (inv : RefreshInv now r uid st pa pb) :
    RefreshInv now r uid (stepProc s db now req pa st).2
      (stepProc s db now req pa st).1 pb := by
  cases pa with
  | start =>
    cases hv : verify_refresh_token st now req.oldRefresh with
    | none =>
      rw [hreq] at hv
      have hstep : stepProc s db now req .start st
          = (.done .unauthorized, st) := by
        simp [stepProc, hreq, hv]
      rw [hstep]
      refine ⟨?_, inv.deadB, ?_, ?_, ?_, inv.uidB⟩
      · intro h
        simp [passedRevoke] at h
      · intro h
        simp [passedRevoke] at h
      · intro _ hpb
        exfalso
        have hget := (inv.phase1 rfl hpb).1
        unfold verify_refresh_token at hv
        rw [hget] at hv
        cases hv
      · intro v h
        simp at h
    | some v =>
      rw [hreq] at hv
      have hstep : stepProc s db now req .start st = (.checkUser v, st) := by
        simp [stepProc, hreq, hv]
      rw [hstep]
      refine ⟨?_, inv.deadB, ?_, ?_, ?_, inv.uidB⟩
      · intro h
        simp [passedRevoke] at h
      · intro h
        simp [passedRevoke] at h
      · intro _ hpb
        exact ⟨(inv.phase1 rfl hpb).1, rfl, (inv.phase1 rfl hpb).2.2⟩
      · intro v' h
        have hv' : v' = v := by
          injection h with h'
          exact h'.symm
        subst hv'
        by_cases hpb : passedRevoke pb = true
        · exfalso
          have hd := inv.deadB hpb
          unfold verify_refresh_token at hv
          rw [hd] at hv
          cases hv
        · have hget := (inv.phase1 rfl (by simpa using hpb)).1
          unfold verify_refresh_token at hv
          rw [hget] at hv
          injection hv with h'
          exact h'.symm
  | checkUser v =>
    have hvu : v = uid := inv.uidA v rfl
    have hstep : stepProc s db now req (.checkUser v) st
        = (.revoke u0, st) := by
      simp [stepProc, hvu, huser]
    rw [hstep]
    refine ⟨?_, inv.deadB, ?_, ?_, ?_, inv.uidB⟩
    · intro h
      simp [passedRevoke] at h
    · intro h
      simp [passedRevoke] at h
    · intro _ hpb
      exact ⟨(inv.phase1 rfl hpb).1, rfl, (inv.phase1 rfl hpb).2.2⟩
    · intro v' h
      simp at h
  | revoke u =>
    by_cases hpb : passedRevoke pb = true
    · have hdead := inv.deadB hpb
      have hrev : (revoke_refresh_token st now req.oldRefresh).1 = false := by
        unfold revoke_refresh_token
        rw [Store.del_fst, hreq]
        unfold verify_refresh_token at hdead
        rw [hdead]
        rfl
      have hstep : stepProc s db now req (.revoke u) st
          = (.done .badRequest,
              (revoke_refresh_token st now req.oldRefresh).2) := by
        simp [stepProc, hrev]
      rw [hstep]
      refine ⟨?_, ?_, ?_, ?_, ?_, inv.uidB⟩
      · intro h
        simp [passedRevoke] at h
      · intro _
        rw [hreq]
        exact Store.get_del_self st now now (Key.refresh r)
      · intro h
        simp [passedRevoke] at h
      · intro _ hpb'
        rw [hpb] at hpb'
        cases hpb'
      · intro v h
        simp at h
    · have hget := (inv.phase1 rfl (by simpa using hpb)).1
      have hrev : (revoke_refresh_token st now req.oldRefresh).1 = true := by
        unfold revoke_refresh_token
        rw [Store.del_fst, hreq]
        unfold verify_refresh_token at hget
        rw [hget]
        rfl
      have hstep : stepProc s db now req (.revoke u) st
          = (.doBlacklist u,
              (revoke_refresh_token st now req.oldRefresh).2) := by
        simp [stepProc, hrev]
      rw [hstep]
      refine ⟨?_, ?_, ?_, ?_, ?_, inv.uidB⟩
      · intro _
        rw [hreq]
        exact Store.get_del_self st now now (Key.refresh r)
      · intro h
        exact absurd h (by simp [hpb])
      · intro h
        exact absurd h.2 (by simp [hpb])
      · intro h
        simp [passedRevoke] at h
      · intro v h
        simp at h
  | doBlacklist u =>
    have hstep : stepProc s db now req (.doBlacklist u) st
        = (.issue u, (blacklist_token s st now req.oldAccess).2) := rfl
    rw [hstep]
    have hpres : ∀ now2,
        ((blacklist_token s st now req.oldAccess).2).get now2 (Key.refresh r)
          = st.get now2 (Key.refresh r) :=
      fun now2 => get_refresh_blacklist_token s st now now2 req.oldAccess r
    refine ⟨?_, ?_, ?_, ?_, ?_, inv.uidB⟩
    · intro _
      rw [hpres now]
      exact inv.deadA rfl
    · intro hpb'
      rw [hpres now]
      exact inv.deadB hpb'
    · intro h
      exact inv.mutex ⟨rfl, h.2⟩
    · intro h
      simp [passedRevoke] at h
    · intro v h
      simp at h
  | issue u =>
    cases hcr : create_refresh_token s st now req.newRefresh u.id with
    | none =>
      exfalso
      unfold create_refresh_token Store.setex at hcr
      by_cases h0 : s.REFRESH_TOKEN_EXPIRE_DAYS * 24 * 60 * 60 ≤ 0
      · omega
      · rw [if_neg h0] at hcr
        cases hcr
    | some st' =>
      have hstep : stepProc s db now req (.issue u) st
          = (.done (.success
                (create_access_token s now req.newJti u.id u.username
                  (some (s.ACCESS_TOKEN_EXPIRE_MINUTES * 60)))
                req.newRefresh), st') := by
        simp [stepProc, hcr]
      rw [hstep]
      have hne : Key.refresh r ≠ Key.refresh req.newRefresh := by
        intro hc
        injection hc with hc'
        exact hfresh hc'.symm
      have hcr' : Store.setex st now (Key.refresh req.newRefresh)
          (s.REFRESH_TOKEN_EXPIRE_DAYS * 24 * 60 * 60) u.id = some st' := hcr
      have hpres : ∀ now2, st'.get now2 (Key.refresh r)
          = st.get now2 (Key.refresh r) :=
        fun now2 => Store.get_setex_ne now2 (Key.refresh r) hne hcr'
      refine ⟨?_, ?_, ?_, ?_, ?_, inv.uidB⟩
      · intro _
        rw [hpres now]
        exact inv.deadA rfl
      · intro hpb'
        rw [hpres now]
        exact inv.deadB hpb'
      · intro h
        exact inv.mutex ⟨rfl, h.2⟩
      · intro h
        simp [passedRevoke] at h
      · intro v h
        simp at h
  | done res =>
    exact inv

theorem isFailure_not_passedRevoke {pc : PC} (h : isFailure pc = true) :
    passedRevoke pc = false := by
  cases pc with
  | done res => cases res <;> simp_all [isFailure, passedRevoke]
  | _ => simp [isFailure] at h

/-- The invariant holds along every interleaving of the two requests. -/
theorem refreshInv_run (s : Settings) (db : UserDb) (now : Int)
    (reqA reqB : RefreshRequest) (r uid : String) (u0 : AuthUser)
    (hA1 : reqA.oldRefresh = r) (hA2 : reqA.newRefresh ≠ r)
    (hB1 : reqB.oldRefresh = r) (hB2 : reqB.newRefresh ≠ r)
    (hdays : 0 < s.REFRESH_TOKEN_EXPIRE_DAYS)
    (huser : get_by_id db uid = some u0)
    (sched : List Bool) (st : Store) (pa pb : PC)
    (inv : RefreshInv now r uid st pa pb) :
    RefreshInv now r uid
      (runSched s db now reqA reqB sched (pa, pb, st)).2.2
      (runSched s db now reqA reqB sched (pa, pb, st)).1
      (runSched s db now reqA reqB sched (pa, pb, st)).2.1 := by
  induction sched generalizing st pa pb with
  | nil => exact inv
  | cons b rest ih =>
    cases b with
    | true =>
      have hstep : runSched s db now reqA reqB (true :: rest) (pa, pb, st)
          = runSched s db now reqA reqB rest
              ((stepProc s db now reqA pa st).1, pb,
                (stepProc s db now reqA pa st).2) := by
        simp [runSched]
      rw [hstep]
      exact ih _ _ _
        (refreshInv_step s db now reqA r uid u0 hA1 hA2 hdays huser st pa pb inv)
    | false =>
      have hstep : runSched s db now reqA reqB (false :: rest) (pa, pb, st)
          = runSched s db now reqA reqB rest
              (pa, (stepProc s db now reqB pb st).1,
                (stepProc s db now reqB pb st).2) := by
        simp [runSched]
      rw [hstep]
      exact ih _ _ _
        (refreshInv_step s db now reqB r uid u0 hB1 hB2 hdays huser st pb pa
          inv.swap).swap

/-- C9: for any interleaving of two `/refresh` requests presenting the
same refresh token (with fresh replacement tokens, a live initial entry
and an existing subject), the two requests never both succeed; and in any
schedule that runs both to completion, exactly one of them succeeds — the
atomic delete is the linearization point, and the loser is rejected. -/
theorem C9_concurrent_refresh_exactly_one (s : Settings) (db : UserDb)
    (now : Int) (reqA reqB : RefreshRequest) (r uid : String) (u0 : AuthUser)
    (st0 : Store) (sched : List Bool)
    (hA1 : reqA.oldRefresh = r) (hA2 : reqA.newRefresh ≠ r)
    (hB1 : reqB.oldRefresh = r) (hB2 : reqB.newRefresh ≠ r)
    (hdays : 0 < s.REFRESH_TOKEN_EXPIRE_DAYS)
    (hlive : st0.get now (Key.refresh r) = some uid)
    (huser : get_by_id db uid = some u0) :
    ¬(isSuccess
        (runSched s db now reqA reqB sched (.start, .start, st0)).1 = true
      ∧ isSuccess
          (runSched s db now reqA reqB sched (.start, .start, st0)).2.1 = true)
    ∧ (isDone (runSched s db now reqA reqB sched (.start, .start, st0)).1 = true →
       isDone (runSched s db now reqA reqB sched (.start, .start, st0)).2.1 = true →
       (isSuccess
          (runSched s db now reqA reqB sched (.start, .start, st0)).1 = true
        ∨ isSuccess
            (runSched s db now reqA reqB sched (.start, .start, st0)).2.1 = true)) := by
  have inv0 : RefreshInv now r uid st0 .start .start :=
    ⟨by intro h; simp [passedRevoke] at h,
      by intro h; simp [passedRevoke] at h,
      by intro h; simp [passedRevoke] at h,
      by intro _ _; exact ⟨hlive, rfl, rfl⟩,
      by intro v h; simp at h,
      by intro v h; simp at h⟩
  have invF := refreshInv_run s db now reqA reqB r uid u0 hA1 hA2 hB1 hB2
    hdays huser sched st0 .start .start inv0
  constructor
  · rintro ⟨h1, h2⟩
    exact invF.mutex ⟨isSuccess_passedRevoke h1, isSuccess_passedRevoke h2⟩
  · intro hda hdb
    by_contra hno
    push_neg at hno
    obtain ⟨hn1, hn2⟩ := hno
    rcases isDone_success_or_failure hda with hs1 | hf1
    · exact absurd hs1 hn1
    rcases isDone_success_or_failure hdb with hs2 | hf2
    · exact absurd hs2 hn2
    have hph := invF.phase1 (isFailure_not_passedRevoke hf1)
      (isFailure_not_passedRevoke hf2)
    rw [hf1] at hph
    cases hph.2.1

/-- Witness for C9: a concrete schedule in which request A runs to
completion first and request B then finds the entry gone — A succeeds, B
does not, and the theorem's two conclusions hold. -/
theorem C9_concurrent_refresh_exactly_one_witness :
    ¬(isSuccess
        (runSched ⟨true, "k", "pub:k", 30, 7⟩ [⟨"u1", "alice", false, true⟩] 0
          ⟨Token.malformed "a", "r1", "ja", "ra"⟩
          ⟨Token.malformed "b", "r1", "jb", "rb"⟩
          [true, true, true, true, true, false]
          (.start, .start, [⟨Key.refresh "r1", "u1", 1000⟩])).1 = true
      ∧ isSuccess
          (runSched ⟨true, "k", "pub:k", 30, 7⟩ [⟨"u1", "alice", false, true⟩] 0
            ⟨Token.malformed "a", "r1", "ja", "ra"⟩
            ⟨Token.malformed "b", "r1", "jb", "rb"⟩
            [true, true, true, true, true, false]
            (.start, .start, [⟨Key.refresh "r1", "u1", 1000⟩])).2.1 = true)
    ∧ (isSuccess
        (runSched ⟨true, "k", "pub:k", 30, 7⟩ [⟨"u1", "alice", false, true⟩] 0
          ⟨Token.malformed "a", "r1", "ja", "ra"⟩
          ⟨Token.malformed "b", "r1", "jb", "rb"⟩
          [true, true, true, true, true, false]
          (.start, .start, [⟨Key.refresh "r1", "u1", 1000⟩])).1 = true
      ∨ isSuccess
          (runSched ⟨true, "k", "pub:k", 30, 7⟩ [⟨"u1", "alice", false, true⟩] 0
            ⟨Token.malformed "a", "r1", "ja", "ra"⟩
            ⟨Token.malformed "b", "r1", "jb", "rb"⟩
            [true, true, true, true, true, false]
            (.start, .start, [⟨Key.refresh "r1", "u1", 1000⟩])).2.1 = true) :=
  ⟨(C9_concurrent_refresh_exactly_one ⟨true, "k", "pub:k", 30, 7⟩
      [⟨"u1", "alice", false, true⟩] 0 ⟨Token.malformed "a", "r1", "ja", "ra"⟩
      ⟨Token.malformed "b", "r1", "jb", "rb"⟩ "r1" "u1"
      ⟨"u1", "alice", false, true⟩ [⟨Key.refresh "r1", "u1", 1000⟩]
      [true, true, true, true, true, false] rfl (by decide) rfl (by decide)
      (by decide) (by decide) (by decide)).1,
    (C9_concurrent_refresh_exactly_one ⟨true, "k", "pub:k", 30, 7⟩
      [⟨"u1", "alice", false, true⟩] 0 ⟨Token.malformed "a", "r1", "ja", "ra"⟩
      ⟨Token.malformed "b", "r1", "jb", "rb"⟩ "r1" "u1"
      ⟨"u1", "alice", false, true⟩ [⟨Key.refresh "r1", "u1", 1000⟩]
      [true, true, true, true, true, false] rfl (by decide) rfl (by decide)
      (by decide) (by decide) (by decide)).2 (by decide) (by decide)⟩
